import Mathlib

/-!
Verification of the multi-strategy HTML data-extraction and LLM-orchestration
pipeline of the bd-as-service repository.  Python functions from the source are
shallowly embedded as executable Lean definitions over lists of characters;
regular expressions are embedded as handwritten matchers for the exact patterns
the source uses.  Documents are restricted, where stated, to markup-free text
(no angle brackets), on which the DOM / JSON-LD strategies of the source
provably contribute no candidates, so the remaining regex logic is embedded
verbatim.
-/

set_option maxRecDepth 100000

namespace BdAsService

/-! ## String utilities mirroring Python primitives -/

/-- Characters matched by the Python regex class for whitespace (ASCII part). -/
def pySpace (c : Char) : Bool :=
  c = ' ' || c = '\t' || c = '\n' || c = '\r' || c = Char.ofNat 11 || c = Char.ofNat 12

/-- Length bound for dropWhile, used for termination of the scanners. -/
theorem dropWhileLenLe {α : Type} (p : α → Bool) :
    ∀ l : List α, (l.dropWhile p).length ≤ l.length
  | [] => by simp
  | a :: l => by
    simp only [List.dropWhile_cons]
    split
    · exact le_trans (dropWhileLenLe p l) (Nat.le_succ _)
    · simp

/-- ASCII lower-casing, modelling case-insensitive matching on ASCII letters. -/
def asciiLower (c : Char) : Char :=
  if 'A' ≤ c && c ≤ 'Z' then Char.ofNat (c.toNat + 32) else c

/-- Index of the first occurrence of `pat` in the text (Python str.find,
returning none instead of -1). -/
def findSub (pat : List Char) : List Char → Option Nat
  | [] => if pat = [] then some 0 else none
  | c :: rest =>
    if pat.isPrefixOf (c :: rest) then some 0
    else (findSub pat rest).map (· + 1)

/-- Python substring containment (`pat in s`). -/
def containsSub (pat s : List Char) : Bool :=
  (findSub pat s).isSome

/-- Case-insensitive containment of an already lower-case ASCII pattern. -/
def containsCI (pat s : List Char) : Bool :=
  containsSub pat (s.map asciiLower)

/-- Python slice `s[a:b]` semantics for integer bounds. -/
def pySlice (s : List Char) (a b : Int) : List Char :=
  let n : Int := s.length
  let lo := if a < 0 then max 0 (n + a) else min a n
  let hi := if b < 0 then max 0 (n + b) else min b n
  if lo < hi then (s.take hi.toNat).drop lo.toNat else []

/-- Value of a list of decimal digit characters. -/
def digitsVal (ds : List Char) : Nat :=
  ds.foldl (fun a c => 10 * a + (c.toNat - 48)) 0

/-- Python str.replace for a non-empty pattern, bounded by input length. -/
def replaceAllAux (pat rep : List Char) : Nat → List Char → List Char
  | 0, s => s
  | fuel + 1, s =>
    match s with
    | [] => []
    | c :: rest =>
      if pat ≠ [] && pat.isPrefixOf s then
        rep ++ replaceAllAux pat rep fuel (s.drop pat.length)
      else
        c :: replaceAllAux pat rep fuel rest

/-- Python str.replace (all occurrences, left to right). -/
def replaceAll (pat rep s : List Char) : List Char :=
  replaceAllAux pat rep s.length s

/-- Python str.strip for ASCII whitespace. -/
def stripWs (s : List Char) : List Char :=
  ((s.dropWhile pySpace).reverse.dropWhile pySpace).reverse

/-! ## The installment regex -/

/-- True when the text contains a digit immediately followed by the letter x
(the existence of such a pair is equivalent to a match of the regex piece for
one-or-more digits followed by x). -/
def hasDigitX : List Char → Bool
  | a :: b :: rest => (a.isDigit && asciiLower b = 'x') || hasDigitX (b :: rest)
  | _ => false

/-- Embeds the case-insensitive installment regex of the source: a digit run
followed by x, or one of the keywords parcelado, parcela, sem juros. -/
def installmentPat (s : List Char) : Bool :=
  hasDigitX s || containsCI "parcelado".data s || containsCI "parcela".data s
    || containsCI "sem juros".data s

/-! ## The price regexes -/

/-- Match the source price regex anchored at the start of the input:
the currency marker, optional whitespace, a non-empty run of digits and dots,
then (mandatorily when `cents` is true, optionally otherwise) a comma and two
digits.  Returns the matched text and the remaining input. -/
def matchPriceAt (cents : Bool) : List Char → Option (List Char × List Char)
  | 'R' :: '$' :: rest =>
    let ws := rest.takeWhile pySpace
    let r1 := rest.dropWhile pySpace
    let run := r1.takeWhile (fun c => c.isDigit || c = '.')
    let r2 := r1.dropWhile (fun c => c.isDigit || c = '.')
    if run.isEmpty then none
    else
      match r2 with
      | ',' :: d1 :: d2 :: r3 =>
        if d1.isDigit && d2.isDigit then
          some ('R' :: '$' :: (ws ++ run ++ ',' :: [d1, d2]), r3)
        else if cents then none
        else some ('R' :: '$' :: (ws ++ run), r2)
      | r2' => if cents then none else some ('R' :: '$' :: (ws ++ run), r2')
  | _ => none

/-- Leftmost, non-overlapping matches of the price regex (re.findall).  The
fuel argument bounds the recursion; the input length is always sufficient
because every step consumes at least one character. -/
def scanPricesAux (cents : Bool) : Nat → List Char → List (List Char)
  | 0, _ => []
  | _, [] => []
  | fuel + 1, c :: rest =>
    match matchPriceAt cents (c :: rest) with
    | some (m, after) => m :: scanPricesAux cents fuel after
    | none => scanPricesAux cents fuel rest

/-- All price matches in document order. -/
def scanPrices (cents : Bool) (s : List Char) : List (List Char) :=
  scanPricesAux cents s.length s

/-! ## Sodimac price reconciliation
(src/app/services/sodimac/scraper/url_extractor.py) -/

/-- Embeds is_installment_price (lines 183-190): the window of forty
characters before and after the first occurrence of the price in the
document, tested against the installment pattern. -/
def is_installment_price (price html : List Char) : Bool :=
  let idx : Int := match findSub price html with
    | some n => (n : Int)
    | none => -1
  let before := pySlice html (max 0 (idx - 40)) idx
  let after := pySlice html idx (idx + 40)
  installmentPat (before ++ after)

/-- The price substrings collected by the broad regex of the source
(line 193), including prices without cents. -/
def sodimacAllPriceTexts (html : List Char) : List (List Char) :=
  scanPrices false html

/-- The candidates that survive the installment filter (line 202). -/
def sodimacFilteredPrices (html : List Char) : List (List Char) :=
  (sodimacAllPriceTexts html).filter (fun p => !is_installment_price p html)

/-- Embeds extract_price_from_html of the Sodimac scraper (lines 124-222) on
markup-free documents (no angle brackets), for which the JSON-LD strategy and
the BeautifulSoup strategies of the source yield no candidates, so all_prices
and the DOM price_candidates are empty and the fallback regex path runs.  The
selection logic of lines 202-222 is embedded verbatim: first non-installment
candidate from the fallback list, then the first filtered price, then the
empty string. -/
def sodimacExtractPrice (html : List Char) : List Char :=
  let price_candidates := (scanPrices true html).take 5
  match price_candidates.find? (fun p => !is_installment_price p html) with
  | some p => p
  | none =>
    match sodimacFilteredPrices html with
    | p :: _ => p
    | [] => []

/-! ## Leroy Merlin price reconciliation
(src/app/services/leroy_merlin/scraper/url_extractor.py) -/

/-- Exact decimal value `mant / 10 ^ scale`, the model of the Python floats
produced by parse_price (prices are short decimal literals, on which float
comparison agrees with exact decimal comparison). -/
structure DecVal where
  mant : Int
  scale : Nat
deriving DecidableEq, Repr

/-- Order on decimal values by cross multiplication. -/
def DecVal.ltDec (a b : DecVal) : Bool :=
  a.mant * (10 : Int) ^ b.scale < b.mant * (10 : Int) ^ a.scale

/-- The rational value of a decimal value. -/
def DecVal.toQ (a : DecVal) : ℚ :=
  (a.mant : ℚ) / (10 : ℚ) ^ a.scale

/-- Parses text the way Python float() does, restricted to plain decimal
literals with an optional sign (the only shapes parse_price can produce). -/
def parseFloatDec (s : List Char) : Option DecVal :=
  let core := fun (t : List Char) (sign : Int) =>
    let ip := t.takeWhile Char.isDigit
    let r := t.dropWhile Char.isDigit
    match r with
    | [] => if ip.isEmpty then none else some ⟨sign * (digitsVal ip : Int), 0⟩
    | '.' :: fr =>
      let fp := fr.takeWhile Char.isDigit
      if (fr.dropWhile Char.isDigit).isEmpty && !(ip.isEmpty && fp.isEmpty) then
        some ⟨sign * (digitsVal (ip ++ fp) : Int), fp.length⟩
      else none
    | _ => none
  match s with
  | '-' :: t => core t (-1)
  | '+' :: t => core t 1
  | t => core t 1

/-- Embeds parse_price (lines 275-286): drop the currency marker, strip,
remove thousands dots, turn the decimal comma into a dot, fall back to 0. -/
def parse_price (s : List Char) : DecVal :=
  let clean := stripWs (replaceAll ('R' :: ['$']) [] s)
  let clean := clean.filter (fun c => c ≠ '.')
  let clean := clean.map (fun c => if c = ',' then '.' else c)
  (parseFloatDec clean).getD ⟨0, 0⟩

/-- First element attaining the maximal value (Python max over (text, value)
pairs keyed by the value, which keeps the first of equal maxima). -/
def maxByFirst : List (List Char × DecVal) → List Char
  | [] => []
  | pv :: rest =>
    (rest.foldl (fun best x => if best.2.ltDec x.2 then x else best) pv).1

/-- Match, at the start of the input, optional whitespace, the word `w1`,
optional whitespace and the word `w2`, case-insensitively; returns the rest.
Models the tail of the à-vista and a-prazo regexes on markup-free documents,
where the optional tag groups can only match the empty string. -/
def matchKeyword (w1 w2 : List Char) (cs : List Char) : Option (List Char) :=
  let r := cs.dropWhile pySpace
  if (w1.map asciiLower).isPrefixOf (r.map asciiLower) then
    let r2 := (r.drop w1.length).dropWhile pySpace
    if (w2.map asciiLower).isPrefixOf (r2.map asciiLower) then
      some (r2.drop w2.length)
    else none
  else none

/-- Leftmost, non-overlapping matches of a price-with-cents followed by a
keyword recognised by `kw` (the captured group is the price text). -/
def scanKeyedAux (kw : List Char → Option (List Char)) :
    Nat → List Char → List (List Char)
  | 0, _ => []
  | _, [] => []
  | fuel + 1, c :: rest =>
    match matchPriceAt true (c :: rest) with
    | some (m, after) =>
      match kw after with
      | some after2 => m :: scanKeyedAux kw fuel after2
      | none => scanKeyedAux kw fuel rest
    | none => scanKeyedAux kw fuel rest

/-- All captured prices followed by a keyword, in document order. -/
def scanKeyed (kw : List Char → Option (List Char)) (s : List Char) :
    List (List Char) :=
  scanKeyedAux kw s.length s

/-- The à-vista keyword tail of strategy 2. -/
def vistaTail (cs : List Char) : Option (List Char) :=
  match matchKeyword ['à'] "vista".data cs with
  | some r => some r
  | none => matchKeyword ['a'] "vista".data cs

/-- The a-prazo / em-até keyword tail of strategy 3. -/
def prazoTail (cs : List Char) : Option (List Char) :=
  match matchKeyword ['a'] "prazo".data cs with
  | some r => some r
  | none => matchKeyword "em".data "até".data cs

/-- Embeds extract_price_from_html of the Leroy Merlin scraper
(lines 158-294) on markup-free documents (no angle brackets): strategy 1
(JSON-LD script blocks) and strategy 4 (heading markup) match nothing there,
strategies 2 and 3 reduce to a price followed by the keyword, and the
fallback takes the first five plain price matches.  The highest price is then
selected by parse_price value, first occurrence winning ties. -/
def leroyExtractPrice (html : List Char) : Option (List Char) :=
  let all_prices := scanKeyed vistaTail html ++ scanKeyed prazoTail html
  let all_prices :=
    if all_prices.isEmpty then (scanPrices true html).take 5 else all_prices
  if all_prices.isEmpty then none
  else some (maxByFirst (all_prices.map (fun p => (p, parse_price p))))

/-! ## Concrete documents for the price claims -/

/-- A markup-free document carrying the two claim candidates with no
installment markers anywhere. -/
def c1doc : List Char := "R$ 99,90 R$ 149,90".data

/-- A markup-free document where the genuine price and the installment offer
are more than forty characters apart, so each candidate sees only its own
context window. -/
def c2doc : List Char :=
  ("R$ 100,00 à vista .................................................. em até 3x de R$ 34,67 sem juros").data

/-! ## Leroy Merlin image extraction
(extract_images_1800, src/app/services/leroy_merlin/scraper/url_extractor.py,
lines 100-151) -/

/-- Normalises one candidate URL: the source unescapes backslash-slash pairs
and URL-decodes; the embedding covers candidates without percent escapes, on
which URL-decoding is the identity. -/
def normalizeUrl (u : List Char) : List Char :=
  replaceAll ('\\' :: ['/']) ['/'] u

/-- Embeds the normalise-and-deduplicate loop of lines 101-109: empty
entries skipped, first-seen order preserved. -/
def normalizeCandidates (cands : List (List Char)) : List (List Char) :=
  cands.foldl
    (fun acc u =>
      if u.isEmpty then acc
      else
        let n := normalizeUrl u
        if n ∈ acc then acc else acc ++ [n])
    []

/-- First maximal run of at least five consecutive digits, bounded by fuel
(each step consumes at least one character, so the input length suffices). -/
def firstDigitRun5Aux : Nat → List Char → Option (List Char)
  | 0, _ => none
  | _, [] => none
  | fuel + 1, c :: rest =>
    if c.isDigit then
      let run := (c :: rest).takeWhile Char.isDigit
      if 5 ≤ run.length then some run
      else firstDigitRun5Aux fuel (rest.dropWhile Char.isDigit)
    else firstDigitRun5Aux fuel rest

/-- First maximal run of at least five consecutive digits (the regex search
of line 115: leftmost match, greedy run). -/
def firstDigitRun5 (s : List Char) : Option (List Char) :=
  firstDigitRun5Aux s.length s

/-- The path component of a URL (scheme and authority dropped, query and
fragment cut off), the part of urlparse the source consumes. -/
def urlPath (u : List Char) : List Char :=
  let afterScheme :=
    match findSub "://".data u with
    | some i => u.drop (i + 3)
    | none => u
  (afterScheme.dropWhile (fun c => c ≠ '/')).takeWhile (fun c => c ≠ '?' && c ≠ '#')

/-- Python str.rstrip restricted to the slash character. -/
def rstripSlash (l : List Char) : List Char :=
  (l.reverse.dropWhile (fun c => c = '/')).reverse

/-- The last slash-separated segment of a path. -/
def lastSegment (l : List Char) : List Char :=
  (l.reverse.takeWhile (fun c => c ≠ '/')).reverse

/-- Embeds the relevance filter of lines 111-130: the product identifier is
the first five-plus digit run of the URL; without one, the portion of the
last path segment before the first underscore is matched instead. -/
def leroyFilterCandidates (productUrl : List Char) (normalized : List (List Char)) :
    List (List Char) :=
  match firstDigitRun5 productUrl with
  | some pid => normalized.filter (fun u => containsSub pid u)
  | none =>
    let last := lastSegment (rstripSlash (urlPath productUrl))
    normalized.filter
      (fun u => !last.isEmpty && containsSub (last.takeWhile (fun c => c ≠ '_')) u)

/-- The full-resolution token test of line 135. -/
def has1800 (u : List Char) : Bool :=
  containsSub "1800x1800".data u

/-- Embeds the reorder loops of lines 132-139: full-resolution URLs first,
then the remaining candidates, each pass skipping entries already placed. -/
def buildFinalOrder (filtered : List (List Char)) : List (List Char) :=
  filtered.foldl (fun acc u => if u ∈ acc then acc else acc ++ [u])
    (filtered.foldl
      (fun acc u => if has1800 u then (if u ∈ acc then acc else acc ++ [u]) else acc) [])

/-- Embeds extract_images_1800 (lines 100-151) from the normalisation of the
collected candidate URLs onward; the candidate-collection strategies of
lines 54-98 are abstracted as the input list they accumulate.  Includes the
empty-filter fallback to the normalised list (lines 141-143) and the cap at
ten entries (lines 145-148). -/
def extract_images_1800 (productUrl : List Char) (candidates : List (List Char)) :
    List (List Char) :=
  let normalized := normalizeCandidates candidates
  let filtered := leroyFilterCandidates productUrl normalized
  let final := buildFinalOrder filtered
  let final := if final.isEmpty then normalized else final
  final.take 10

/-- Fuelled scan for the longest maximal digit run. -/
def longestDigitRunAux : Nat → List Char → List Char
  | 0, _ => []
  | _, [] => []
  | fuel + 1, c :: rest =>
    if c.isDigit then
      let run := (c :: rest).takeWhile Char.isDigit
      let other := longestDigitRunAux fuel (rest.dropWhile Char.isDigit)
      if other.length ≤ run.length then run else other
    else longestDigitRunAux fuel rest

/-- Modelled from the claim wording, for comparison only: the longest maximal
run of consecutive digits in a string (first among equally long ones). -/
def longestDigitRun (s : List Char) : List Char :=
  longestDigitRunAux s.length s

/-! ## Leroy Merlin full product extraction
(extract_product_data, same file, lines 475-564) -/

/-- Python truthiness of an optional string (None and the empty string are
falsy). -/
def pyTruthy : Option (List Char) → Bool
  | none => false
  | some s => !s.isEmpty

/-- The outputs of the five sub-extractors on a fetched document (lines
514-521), abstracted as inputs because the claim concerns the assembly and
error logic downstream of them. -/
structure LeroySubResults where
  titulo : Option (List Char)
  preco : Option (List Char)
  marca : List Char
  ean : List Char
  image_urls : List (List Char)
deriving DecidableEq

/-- The record assembled by extract_product_data. -/
structure LeroyProductData where
  url : List Char
  titulo : List Char
  preco : List Char
  marca : List Char
  ean : List Char
  image_urls : List (List Char)
  success : Bool
  error : Option (List Char)
deriving DecidableEq

/-- The not-found sentinel returned by extract_brand_from_html. -/
def marcaSentinel : List Char := "Marca não encontrada".data

/-- The not-found sentinel returned by extract_ean_from_html. -/
def eanSentinel : List Char := "EAN não encontrado".data

/-- The error message attached when title or price is missing (line 536). -/
def failedMsg : List Char := "Failed to extract title or price".data

/-- Embeds extract_product_data (lines 475-564): on a fetched page the record
is assembled from the sub-extractor outputs, success being the truthiness of
title and price (lines 525-539); on a fetch or unexpected exception the
all-empty record with the not-found sentinels and the exception message is
returned (lines 541-564). -/
def extract_product_data (url : List Char) :
    Except (List Char) LeroySubResults → LeroyProductData
  | .error msg =>
    ⟨url, [], [], marcaSentinel, eanSentinel, [], false, some msg⟩
  | .ok sub =>
    let success := pyTruthy sub.titulo && pyTruthy sub.preco
    ⟨url, sub.titulo.getD [], sub.preco.getD [], sub.marca, sub.ean,
      sub.image_urls, success, if success then none else some failedMsg⟩

/-! ## A JSON model

Models json.loads on the fragment these clients exchange: objects, arrays,
strings with the standard escapes, integer numerals, booleans and null
(the prompts demand JSON objects of strings, integers and string lists). -/

/-- The opening curly brace character. -/
def lbrace : Char := Char.ofNat 123

/-- The closing curly brace character. -/
def rbrace : Char := Char.ofNat 125

/-- JSON whitespace. -/
def jsonWs (c : Char) : Bool :=
  c = ' ' || c = '\t' || c = '\n' || c = '\r'

/-- JSON values. -/
inductive Json where
  | null
  | bool (b : Bool)
  | num (n : Int)
  | str (s : List Char)
  | arr (xs : List Json)
  | obj (fields : List (List Char × Json))

/-- The underlying characters when the value is a JSON string. -/
def Json.asStr : Json → Option (List Char)
  | .str s => some s
  | _ => none

/-- Value of a hexadecimal digit. -/
def hexVal (c : Char) : Option Nat :=
  if c.isDigit then some (c.toNat - 48)
  else if 'a' ≤ c && c ≤ 'f' then some (c.toNat - 87)
  else if 'A' ≤ c && c ≤ 'F' then some (c.toNat - 55)
  else none

/-- Body of a JSON string literal after the opening quote: returns the
decoded characters and the input after the closing quote.  Control
characters are rejected as json.loads does in strict mode. -/
def parseStringBody : Nat → List Char → Option (List Char × List Char)
  | 0, _ => none
  | fuel + 1, cs =>
    match cs with
    | [] => none
    | '"' :: rest => some ([], rest)
    | '\\' :: e :: rest =>
      let cont := fun (c : Char) (r : List Char) =>
        (parseStringBody fuel r).map (fun sr => (c :: sr.1, sr.2))
      match e with
      | '"' => cont '"' rest
      | '\\' => cont '\\' rest
      | '/' => cont '/' rest
      | 'b' => cont (Char.ofNat 8) rest
      | 'f' => cont (Char.ofNat 12) rest
      | 'n' => cont '\n' rest
      | 'r' => cont '\r' rest
      | 't' => cont '\t' rest
      | 'u' =>
        match rest with
        | h1 :: h2 :: h3 :: h4 :: rest2 =>
          match hexVal h1, hexVal h2, hexVal h3, hexVal h4 with
          | some a, some b, some c, some d =>
            cont (Char.ofNat (((a * 16 + b) * 16 + c) * 16 + d)) rest2
          | _, _, _, _ => none
        | _ => none
      | _ => none
    | c :: rest =>
      if c.toNat < 32 then none
      else (parseStringBody fuel rest).map (fun sr => (c :: sr.1, sr.2))

/-- A JSON string literal starting after its opening quote. -/
def parseStringTop (cs : List Char) : Option (List Char × List Char) :=
  parseStringBody (cs.length + 1) cs

/-- A JSON integer numeral without sign: leading zeros rejected, a following
fraction or exponent marker rejected (outside the modelled fragment). -/
def parseNumTail (cs : List Char) : Option (Nat × List Char) :=
  match cs with
  | [] => none
  | d :: rest =>
    if !d.isDigit then none
    else
      let run := (d :: rest).takeWhile Char.isDigit
      let after := (d :: rest).dropWhile Char.isDigit
      if d = '0' && 1 < run.length then none
      else
        match after with
        | c :: _ => if c = '.' || c = 'e' || c = 'E' then none
                    else some (digitsVal run, after)
        | [] => some (digitsVal run, after)

mutual

/-- A JSON value with surrounding whitespace skipped in front. -/
def parseVal : Nat → List Char → Option (Json × List Char)
  | 0, _ => none
  | fuel + 1, cs =>
    let cs1 := cs.dropWhile jsonWs
    match cs1 with
    | [] => none
    | c :: rest =>
      if c = lbrace then
        let r := rest.dropWhile jsonWs
        match r with
        | d :: r2 =>
          if d = rbrace then some (.obj [], r2)
          else (parseMembers fuel r).map (fun fr => (.obj fr.1, fr.2))
        | [] => none
      else if c = '[' then
        let r := rest.dropWhile jsonWs
        match r with
        | d :: r2 =>
          if d = ']' then some (.arr [], r2)
          else (parseItems fuel r).map (fun xr => (.arr xr.1, xr.2))
        | [] => none
      else if c = '"' then
        (parseStringTop rest).map (fun sr => (.str sr.1, sr.2))
      else if c = 't' then
        if "rue".data.isPrefixOf rest then some (.bool true, rest.drop 3) else none
      else if c = 'f' then
        if "alse".data.isPrefixOf rest then some (.bool false, rest.drop 4) else none
      else if c = 'n' then
        if "ull".data.isPrefixOf rest then some (.null, rest.drop 3) else none
      else if c = '-' then
        (parseNumTail rest).map (fun nr => (.num (-(nr.1 : Int)), nr.2))
      else
        (parseNumTail cs1).map (fun nr => (.num (nr.1 : Int), nr.2))

/-- The members of a JSON object, positioned at the first key, consuming the
closing brace. -/
def parseMembers : Nat → List Char → Option (List (List Char × Json) × List Char)
  | 0, _ => none
  | fuel + 1, cs =>
    match cs.dropWhile jsonWs with
    | '"' :: rest =>
      match parseStringTop rest with
      | some (key, r1) =>
        match r1.dropWhile jsonWs with
        | ':' :: r3 =>
          match parseVal fuel r3 with
          | some (v, r4) =>
            match r4.dropWhile jsonWs with
            | ',' :: r6 =>
              (parseMembers fuel r6).map (fun fr => ((key, v) :: fr.1, fr.2))
            | d :: r6 => if d = rbrace then some ([(key, v)], r6) else none
            | [] => none
          | none => none
        | _ => none
      | none => none
    | _ => none

/-- The items of a JSON array, positioned at the first item, consuming the
closing bracket. -/
def parseItems : Nat → List Char → Option (List Json × List Char)
  | 0, _ => none
  | fuel + 1, cs =>
    match parseVal fuel cs with
    | some (v, r1) =>
      match r1.dropWhile jsonWs with
      | ',' :: r2 => (parseItems fuel r2).map (fun xr => (v :: xr.1, xr.2))
      | ']' :: r2 => some ([v], r2)
      | _ => none
    | none => none

end

/-- Models json.loads: a single value with only whitespace around it. -/
def jsonLoads (s : List Char) : Option Json :=
  match parseVal (s.length + 1) s with
  | some (v, rest) => if (rest.dropWhile jsonWs).isEmpty then some v else none
  | none => none

/-- Python dict lookup on the parsed object (duplicate keys: last wins, as
in the dict json.loads builds). -/
def jsonGet (fields : List (List Char × Json)) (key : List Char) : Option Json :=
  (fields.reverse.find? (fun kv => kv.1 = key)).map (fun kv => kv.2)

/-- Models the brace-block regex of the Sodimac client (a lazy dot-all search
from the first opening brace, greedy to the last closing brace). -/
def extractBraceBlock (s : List Char) : Option (List Char) :=
  match findSub [lbrace] s, findSub [rbrace] s.reverse with
  | some i, some k =>
    let j := s.length - 1 - k
    if i < j then some (pySlice s i ((j : Int) + 1)) else none
  | _, _ => none

/-- Strips the markdown code fences the way all these clients do before
json.loads (the json fence first, then bare fences, then whitespace). -/
def stripFences (text : List Char) : List Char :=
  stripWs (replaceAll "```".data [] (replaceAll "```json".data [] text))

/-! ## The Sodimac generative client
(src/app/services/sodimac/scraper/gemini_client.py) -/

/-- Outcome of one underlying API call: a response text with its usage
metadata (absent metadata already defaulted to zero, as the getattr calls of
lines 89-92 do), or a raised exception with its message. -/
inductive CallOutcome where
  | ok (text : List Char) (inTok outTok : Nat)
  | exn (msg : List Char)

/-- An environment assigning an outcome to every attempt index. -/
def envOf (l : List CallOutcome) : Nat → CallOutcome :=
  fun n => l.getD n (.exn [])

/-- The transient-error test of lines 61 and 107. -/
def retryable (msg : List Char) : Bool :=
  containsSub "503".data msg || containsSub "429".data msg

/-- The dictionary returned by extract_description_from_url. -/
structure DescResult where
  descricao : List Char
  inTok : Nat
  outTok : Nat
deriving DecidableEq

/-- The body of the try block of extract_description_from_url (lines 81-104)
on a successful API call: capture the usage, locate the brace block, parse it
and read descricao.  A missing block returns the empty description with the
captured usage (line 96); an unparseable block or a non-string field raises
internally, and the raised message carries neither 503 nor 429, so the
handler returns the zero-usage result of line 114. -/
def descPayload (text : List Char) (inTok outTok : Nat) : DescResult :=
  match extractBraceBlock text with
  | none => ⟨[], inTok, outTok⟩
  | some block =>
    match jsonLoads block with
    | some (.obj fields) =>
      match (jsonGet fields "descricao".data).getD (.str []) with
      | .str s => ⟨stripWs s, inTok, outTok⟩
      | _ => ⟨[], 0, 0⟩
    | _ => ⟨[], 0, 0⟩

/-- The retry loop of extract_description_from_url (lines 77-114): at most
three attempts, a retryable failure before the last attempt sleeps the
current delay and doubles it, anything else returns the zero-usage result.
Returns the result, the number of attempts made and the list of sleeps. -/
def runDescAux (env : Nat → CallOutcome) :
    Nat → Nat → Nat → List Nat → DescResult × Nat × List Nat
  | attempt, 0, _, sleeps => (⟨[], 0, 0⟩, attempt, sleeps)
  | attempt, r + 1, delay, sleeps =>
    match env attempt with
    | .ok text i o => (descPayload text i o, attempt + 1, sleeps)
    | .exn msg =>
      if retryable msg then
        match r with
        | 0 => (⟨[], 0, 0⟩, attempt + 1, sleeps)
        | _ + 1 => runDescAux env (attempt + 1) r (delay * 2) (sleeps ++ [delay])
      else (⟨[], 0, 0⟩, attempt + 1, sleeps)

/-- Embeds extract_description_from_url (lines 70-114): three attempts,
initial backoff two seconds. -/
def extract_description_from_url (env : Nat → CallOutcome) :
    DescResult × Nat × List Nat :=
  runDescAux env 0 3 2 []

/-- The dictionary returned by extract_product_data_from_url: the success
shape of lines 51-58 or the error shape of line 68. -/
inductive DataResult where
  | okR (titulo preco marca ean especificacoes : Json)
  | errR (msg : List Char)

/-- The body of the try block of extract_product_data_from_url (lines
38-58): a missing brace block raises the ValueError of line 47, whose
message reaches the handler; an unparseable block raises a decode error
(modelled by its leading message); a parsed object is read with the get
defaults of lines 52-56. -/
def dataPayload (text : List Char) : DataResult :=
  match extractBraceBlock text with
  | none => .errR "JSON técnico não encontrado na resposta".data
  | some block =>
    match jsonLoads block with
    | some (.obj fields) =>
      .okR ((jsonGet fields "titulo".data).getD (.str []))
        ((jsonGet fields "preco".data).getD (.str []))
        ((jsonGet fields "marca".data).getD (.str []))
        ((jsonGet fields "ean".data).getD (.str []))
        ((jsonGet fields "especificacoes".data).getD (.arr []))
    | _ => .errR "Expecting value".data

/-- The retry loop of extract_product_data_from_url (lines 34-68); the error
dictionary carries the message of the last exception. -/
def runDataAux (env : Nat → CallOutcome) :
    Nat → Nat → Nat → List Nat → DataResult × Nat × List Nat
  | attempt, 0, _, sleeps => (.errR [], attempt, sleeps)
  | attempt, r + 1, delay, sleeps =>
    match env attempt with
    | .ok text _ _ => (dataPayload text, attempt + 1, sleeps)
    | .exn msg =>
      if retryable msg then
        match r with
        | 0 => (.errR msg, attempt + 1, sleeps)
        | _ + 1 => runDataAux env (attempt + 1) r (delay * 2) (sleeps ++ [delay])
      else (.errR msg, attempt + 1, sleeps)

/-- Embeds extract_product_data_from_url (lines 26-68): three attempts,
initial backoff two seconds. -/
def extract_product_data_from_url (env : Nat → CallOutcome) :
    DataResult × Nat × List Nat :=
  runDataAux env 0 3 2 []

/-! ## The Leroy Merlin generative client
(src/app/services/leroy_merlin/scraper/gemini_client.py) -/

/-- The model response as the client observes it: a raised exception, a
response without a text attribute, or a response text. -/
inductive LMResponse where
  | raises (msg : List Char)
  | noText
  | resp (text : List Char)

/-- The error dictionary shape of lines 45, 51, 61, 82 and 87: empty fields
and the error message. -/
def errDict (msg : List Char) : List (List Char × Json) :=
  [("titulo".data, .str []), ("preco".data, .str []),
   ("descricao".data, .str []), ("error".data, .str msg)]

/-- Embeds extract_product_data_from_url of the Leroy Merlin client (lines
25-87) as the dictionary it returns.  Covers responses whose parsed JSON top
level, when not an object, makes the required-field loop of lines 67-74
raise (every non-object except an array listing all three required names,
outside the modelled fragment); a parse failure is the JSONDecodeError
branch of lines 79-82. -/
def leroyExtractFromUrl (r : LMResponse) : List (List Char × Json) :=
  match r with
  | .raises msg => errDict msg
  | .noText => errDict "API returned empty response".data
  | .resp text =>
    if (stripWs text).isEmpty then errDict "API returned empty text".data
    else
      let clean := stripFences text
      if clean.isEmpty then errDict "No valid JSON content found".data
      else
        match jsonLoads clean with
        | none => errDict "JSON parsing failed: Expecting value".data
        | some (.obj fields) =>
          let fields :=
            if (jsonGet fields "titulo".data).isSome then fields
            else fields ++ [("titulo".data, .str [])]
          let fields :=
            if (jsonGet fields "preco".data).isSome then fields
            else fields ++ [("preco".data, .str [])]
          let fields :=
            if (jsonGet fields "especificacoes".data).isSome then fields
            else fields ++ [("especificacoes".data, .arr [])]
          fields
        | some _ => errDict "list indices must be integers or slices, not str".data

/-! ## The shared multimodal client
(src/app/shared/gemini_client.py, GeminiClient.extract_product_data,
lines 131-144, identical in the Sams Club variant lines 56-68) -/

/-- The product-image selection of lines 131-144: parse the cleaned response,
read product_image_index with default 2, convert to 0-based and index with a
range check falling back to the last path; any exception on the way (parse
failure, a non-numeric index, indexing an empty list) lands in the bare
except of line 137, which takes the last path given at least three images
and the first otherwise.  Returns none exactly when Python would raise
(only possible on an empty input list). -/
def product_image_path (paths : List (List Char)) (text : List Char) :
    Option (List Char) :=
  let fallback : Option (List Char) :=
    if 3 ≤ paths.length then paths.getLast? else paths.head?
  match jsonLoads (stripFences text) with
  | some (.obj fields) =>
    match (jsonGet fields "product_image_index".data).getD (.num 2) with
    | .num n =>
      let pi := n - 1
      if 0 ≤ pi ∧ pi < (paths.length : Int) then paths.get? pi.toNat
      else paths.getLast?
    | .bool b =>
      let pi : Int := (if b then 1 else 0) - 1
      if 0 ≤ pi ∧ pi < (paths.length : Int) then paths.get? pi.toNat
      else paths.getLast?
    | _ => fallback
  | _ => fallback

/-! ## The image synthesis pipeline
(src/app/shared/gemini_client.py, generate_product_images_with_gemini,
lines 420-838), embedded at the level of its temporary-file effects. -/

/-- File-system state threaded through the pipeline model: the temporary
files currently on disk, a fresh-name counter, and the record of every file
created during the call. -/
structure FS where
  disk : List Nat
  next : Nat
  created : List Nat
deriving DecidableEq

/-- Creates a fresh temporary file (tempfile.NamedTemporaryFile with
delete=False). -/
def FS.touch (fs : FS) : Nat × FS :=
  (fs.next, ⟨fs.disk ++ [fs.next], fs.next + 1, fs.created ++ [fs.next]⟩)

/-- Removes a file when present (os.remove guarded by os.path.exists). -/
def FS.rm (fs : FS) (f : Nat) : FS :=
  ⟨fs.disk.erase f, fs.next, fs.created⟩

/-- Outcome of the fidelity validation of one generated candidate: a verdict
with its confidence, or a parsed validation object without the approved key
(whose lookup raises a KeyError at line 672). -/
inductive ValOutcome where
  | verdict (approved : Bool) (confidence : Nat)
  | malformed

/-- Outcome of one generation attempt inside generate_with_retry: the model
call raised, produced no usable payload, produced a payload that fails the
image check (lines 656-662), or produced a payload that is validated. -/
inductive GenAttempt where
  | genError
  | noImage
  | invalidImage
  | image (val : ValOutcome)

/-- One variation of step 2: its generation attempts and whether its upload
succeeds. -/
structure VarEnv where
  attempts : List GenAttempt
  uploadOk : Bool

/-- The external outcomes of one pipeline invocation. -/
structure ImgEnv where
  wasConverted : Bool
  cropSaved : Bool
  base : List GenAttempt
  baseUploadOk : Bool
  vars : List VarEnv

/-- Embeds generate_with_retry (lines 544-698) with validation requested and
three attempts (both call sites pass max_retries three): each payload is
written to a fresh temporary file; the invalid-image path and both
validation-verdict paths remove it before continuing or returning; a
malformed validation object raises a KeyError caught by the attempt handler
of line 691, leaving the file on disk.  Returns the produced data as its
validation flag, if any, and the updated file system. -/
def genRetryAux (env : Nat → GenAttempt) :
    Nat → Nat → FS → Option Bool × FS
  | _, 0, fs => (none, fs)
  | attempt, r + 1, fs =>
    match env attempt with
    | .genError =>
      match r with
      | 0 => (none, fs)
      | _ + 1 => genRetryAux env (attempt + 1) r fs
    | .noImage => genRetryAux env (attempt + 1) r fs
    | .invalidImage =>
      let tfs := fs.touch
      genRetryAux env (attempt + 1) r (tfs.2.rm tfs.1)
    | .image val =>
      let tfs := fs.touch
      match val with
      | .verdict ok conf =>
        if ok && 70 ≤ conf then (some true, tfs.2.rm tfs.1)
        else
          match r with
          | 0 => (some false, tfs.2.rm tfs.1)
          | _ + 1 => genRetryAux env (attempt + 1) r (tfs.2.rm tfs.1)
      | .malformed =>
        match r with
        | 0 => (none, tfs.2)
        | _ + 1 => genRetryAux env (attempt + 1) r tfs.2

/-- generate_with_retry from attempt zero with three attempts. -/
def genRetry (attempts : List GenAttempt) (fs : FS) : Option Bool × FS :=
  genRetryAux (fun n => attempts.getD n .genError) 0 3 fs

/-- The loop body of the variation stage (lines 777-814): a failed
generation continues; a produced payload is saved to a fresh temporary file
recorded in temp_files before the upload, whose failure is caught by the
per-variation handler and merely skips the url. -/
def variationStep (state : Nat × List Nat × FS) (ve : VarEnv) :
    Nat × List Nat × FS :=
  let urls := state.1
  let tfs := state.2.1
  let fs := state.2.2
  match genRetry ve.attempts fs with
  | (none, fs') => (urls, tfs, fs')
  | (some _, fs') =>
    let t := fs'.touch
    if ve.uploadOk then (urls + 1, tfs ++ [t.1], t.2)
    else (urls, tfs ++ [t.1], t.2)

/-- Embeds generate_product_images_with_gemini (lines 420-838) at the level
of its temporary-file effects: the MPO conversion temp (lines 443-446), the
saved crop (lines 499-505), the base generation and its early return without
cleanup (lines 716-726), the base save-and-upload with its early return
without cleanup (lines 729-754), the three variations, and the final cleanup
loop over temp_files (lines 825-831).  The debug-dump path of lines 615-627,
which deliberately persists a file, is outside the model.  Returns the
number of uploaded images and the final file system. -/
def generate_product_images (env : ImgEnv) (fs0 : FS) : Nat × FS :=
  let step1 :=
    if env.wasConverted then
      let c := fs0.touch
      ([c.1], c.2)
    else ([], fs0)
  let tempFiles0 := step1.1
  let step2 :=
    if env.cropSaved then
      let k := step1.2.touch
      (tempFiles0 ++ [k.1], k.2)
    else (tempFiles0, step1.2)
  let tempFiles1 := step2.1
  match genRetry env.base step2.2 with
  | (none, fs3) => (0, fs3)
  | (some _, fs3) =>
    let b := fs3.touch
    let tempFiles2 := tempFiles1 ++ [b.1]
    if !env.baseUploadOk then (0, b.2)
    else
      let pad : VarEnv := ⟨[], true⟩
      let vars3 := (env.vars ++ [pad, pad, pad]).take 3
      let final := vars3.foldl variationStep (1, tempFiles2, b.2)
      (final.1, final.2.1.foldl FS.rm final.2.2)

/-! ## Cost accounting (src/app/services/sodimac/api/routes.py)

The Python float arithmetic of the route is modelled as exact rational
arithmetic, the standard reading of the configured decimal prices. -/

/-- The currency conversion factor of line 31. -/
def USD_TO_BRL : ℚ := 51 / 10

/-- Input-token price per token (line 32): a tenth of a dollar per million
tokens, converted to the target currency. -/
def PRICE_IN : ℚ := 1 / 10 / 1000000 * USD_TO_BRL

/-- Output-token price per token (line 33): four tenths of a dollar per
million tokens, converted to the target currency. -/
def PRICE_OUT : ℚ := 4 / 10 / 1000000 * USD_TO_BRL

/-- Usage of one call; tokens are non-negative integers, zero when the call
errored before the API responded. -/
structure GenerationUsage where
  input : Nat
  output : Nat

/-- The per-item cost of lines 92-94. -/
def itemCost (u : GenerationUsage) : ℚ :=
  (u.input : ℚ) * PRICE_IN + (u.output : ℚ) * PRICE_OUT

/-- Round half to even (Python round) on a rational. -/
def roundHalfEven (x : ℚ) : Int :=
  let f := ⌊x⌋
  let r := x - f
  if r < 1 / 2 then f
  else if 1 / 2 < r then f + 1
  else if Even f then f else f + 1

/-- Python round(x, 6) on the exact decimal value. -/
def round6 (x : ℚ) : ℚ :=
  (roundHalfEven (x * 1000000) : ℚ) / 1000000

/-- The per-item cost reported on the response object (line 121). -/
def reportedItemCost (u : GenerationUsage) : ℚ :=
  round6 (itemCost u)

/-- The batch accumulator of lines 74 and 97: total_cost_batch_brl summed
item by item, without rounding and without state outside the loop. -/
def batchCost (usages : List GenerationUsage) : ℚ :=
  usages.foldl (fun acc u => acc + itemCost u) 0

/-! ## Helper lemmas -/

/-- A fold whose step either keeps the accumulator or appends one element
not yet present preserves the no-duplicates invariant. -/
theorem nodup_foldl_guard {α : Type} (step : List α → α → List α)
    (h : ∀ acc u, step acc u = acc ∨ ∃ v, v ∉ acc ∧ step acc u = acc ++ [v]) :
    ∀ (l : List α) (acc : List α), acc.Nodup → (l.foldl step acc).Nodup := by
  intro l
  induction l with
  | nil => intro acc hacc; simpa using hacc
  | cons a l ih =>
    intro acc hacc
    simp only [List.foldl_cons]
    rcases h acc a with heq | ⟨v, hv, heq⟩
    · rw [heq]; exact ih acc hacc
    · rw [heq]
      refine ih _ ?_
      rw [List.nodup_append]
      refine ⟨hacc, List.nodup_singleton v, ?_⟩
      intro x hx hxm
      simp only [List.mem_singleton] at hxm
      exact hv (hxm ▸ hx)

/-- The first pass of the reorder loop seen as a filter: over a
duplicate-free input disjoint from the accumulator, the guarded append
collects exactly the elements satisfying the predicate, in order. -/
theorem foldl_guard_filter (p : List Char → Bool) :
    ∀ (l acc : List (List Char)), l.Nodup → (∀ u ∈ l, u ∉ acc) →
      l.foldl (fun acc u => if p u then (if u ∈ acc then acc else acc ++ [u]) else acc) acc
        = acc ++ l.filter p := by
  intro l
  induction l with
  | nil => intro acc _ _; simp
  | cons a l ih =>
    intro acc hnd hdis
    have ha : a ∉ acc := hdis a (by simp)
    have hnd' := (List.nodup_cons.mp hnd).2
    have hal := (List.nodup_cons.mp hnd).1
    simp only [List.foldl_cons, List.filter_cons]
    by_cases hp : p a
    · simp only [hp, if_true, if_neg ha]
      rw [ih (acc ++ [a]) hnd' ?_]
      · simp
      · intro u hu
        simp only [List.mem_append, List.mem_singleton]
        rintro (h | h)
        · exact hdis u (by simp [hu]) h
        · exact hal (h ▸ hu)
    · simp only [hp, Bool.false_eq_true, if_false]
      rw [ih acc hnd' (fun u hu => hdis u (by simp [hu]))]

/-- The second pass of the reorder loop seen as a filter: over a
duplicate-free input, the dedup-append collects exactly the elements not
already in the accumulator, in order. -/
theorem foldl_dedup_append :
    ∀ (l acc : List (List Char)), l.Nodup →
      l.foldl (fun acc u => if u ∈ acc then acc else acc ++ [u]) acc
        = acc ++ l.filter (fun u => decide (u ∉ acc)) := by
  intro l
  induction l with
  | nil => intro acc _; simp
  | cons a l ih =>
    intro acc hnd
    have hnd' := (List.nodup_cons.mp hnd).2
    have hal := (List.nodup_cons.mp hnd).1
    simp only [List.foldl_cons, List.filter_cons]
    by_cases ha : a ∈ acc
    · rw [if_pos ha, ih acc hnd']
      simp [ha]
    · simp only [if_neg ha]
      rw [ih (acc ++ [a]) hnd']
      have hfc : l.filter (fun u => decide (u ∉ acc ++ [a]))
          = l.filter (fun u => decide (u ∉ acc)) := by
        apply List.filter_congr
        intro x hx
        have hxa : x ≠ a := fun h => hal (h ▸ hx)
        simp [List.mem_append, hxa]
      rw [hfc]
      simp [ha]

/-- The normalise-and-deduplicate loop never produces duplicates. -/
theorem normalizeCandidates_nodup (cands : List (List Char)) :
    (normalizeCandidates cands).Nodup := by
  unfold normalizeCandidates
  refine nodup_foldl_guard _ ?_ cands [] List.nodup_nil
  intro acc u
  by_cases h1 : u.isEmpty
  · simp [h1]
  · by_cases h2 : normalizeUrl u ∈ acc
    · simp [h1, h2]
    · right
      exact ⟨normalizeUrl u, h2, by simp [h1, h2]⟩

/-- The reorder loop over a duplicate-free input lists the full-resolution
entries first and the remaining entries second, each group in input order. -/
theorem buildFinalOrder_eq {F : List (List Char)} (hF : F.Nodup) :
    buildFinalOrder F = F.filter has1800 ++ F.filter (fun u => !has1800 u) := by
  unfold buildFinalOrder
  rw [foldl_guard_filter has1800 F [] hF (by simp), List.nil_append,
    foldl_dedup_append F (F.filter has1800) hF]
  congr 1
  apply List.filter_congr
  intro x hx
  by_cases hp : has1800 x <;> simp [List.mem_filter, hx, hp]

/-- Folding addition of a per-item value is summation. -/
theorem foldl_add_eq_sum (f : GenerationUsage → ℚ) :
    ∀ (l : List GenerationUsage) (a : ℚ),
      l.foldl (fun acc u => acc + f u) a = a + (l.map f).sum := by
  intro l
  induction l with
  | nil => intro a; simp
  | cons u l ih => intro a; simp [List.foldl_cons, ih, add_assoc]

/-! ## Claim theorems -/

/-- C1: the claim says the price reconciliation returns the candidate with
the maximum numeric value among the non-installment candidates, returning
the larger of two genuine prices.  On the document carrying exactly the two
claim candidates and no installment markers, the Sodimac
extract_price_from_html returns the first filtered candidate in document
order, not the maximum — the function computes no maximum anywhere, against
its own docstring — while the Leroy Merlin sibling does return the maximum
on the same document. -/
theorem C1_sodimac_returns_first_not_max :
    sodimacExtractPrice c1doc = "R$ 99,90".data ∧
    "R$ 99,90".data ≠ ("R$ 149,90".data) ∧
    sodimacFilteredPrices c1doc = ["R$ 99,90".data, "R$ 149,90".data] ∧
    leroyExtractPrice c1doc = some ("R$ 149,90".data) := by
  exact ⟨by decide, by decide, by decide, by decide⟩

/-- C2: a candidate is excluded by the installment filter exactly when it
occurs among the collected price texts and the eighty-character window
around its first occurrence matches the installment pattern (a digit
followed by x, parcelado, parcela or sem juros); on a page carrying the
claim candidates "R$ 100,00 à vista" and "R$ 34,67 em até 3x" with disjoint
context windows, the result is "R$ 100,00" — the smaller installment price
is excluded by its pattern, not by magnitude. -/
theorem C2_installment_exclusion_pattern_based :
    (∀ html p, p ∈ sodimacFilteredPrices html ↔
      p ∈ sodimacAllPriceTexts html ∧ is_installment_price p html = false) ∧
    sodimacExtractPrice c2doc = "R$ 100,00".data ∧
    is_installment_price ("R$ 34,67".data) c2doc = true ∧
    is_installment_price ("R$ 100,00".data) c2doc = false := by
  refine ⟨?_, by decide, by decide, by decide⟩
  intro html p
  simp [sodimacFilteredPrices, List.mem_filter]

/-- C9: batch cost accumulation is pure and linear — the total is the sum
over the items of input tokens times the input price plus output tokens
times the output price, where the prices are the per-million dollar rates
times the conversion factor; the reported per-item cost is the exact cost
rounded to six decimal places, and accumulating a list twice yields exactly
double the cost of accumulating it once. -/
theorem C9_cost_accounting_linear :
    (∀ l : List GenerationUsage,
      batchCost l
        = (l.map (fun u => (u.input : ℚ) * PRICE_IN + (u.output : ℚ) * PRICE_OUT)).sum) ∧
    (∀ l : List GenerationUsage, batchCost (l ++ l) = 2 * batchCost l) ∧
    (∀ u : GenerationUsage,
      reportedItemCost u
        = round6 ((u.input : ℚ) * PRICE_IN + (u.output : ℚ) * PRICE_OUT)) ∧
    PRICE_IN = 1 / 10 / 1000000 * USD_TO_BRL ∧
    PRICE_OUT = 4 / 10 / 1000000 * USD_TO_BRL := by
  have hsum : ∀ l : List GenerationUsage,
      batchCost l
        = (l.map (fun u => (u.input : ℚ) * PRICE_IN + (u.output : ℚ) * PRICE_OUT)).sum := by
    intro l
    rw [batchCost, foldl_add_eq_sum itemCost l 0, zero_add]
    rfl
  refine ⟨hsum, ?_, fun u => rfl, rfl, rfl⟩
  intro l
  rw [hsum, hsum, List.map_append, List.sum_append]
  ring

/-- C3: a call raising messages carrying 503 or 429 is retried, sleeping two
seconds and then four (base plus twice base); failing twice and succeeding
on the third attempt yields the same payload as an immediate success, after
exactly three attempts; a non-transient exception returns the structured
zero-usage result after one attempt; exhausting the three attempts returns
the structured error result with zero usage.  Both client operations are
total functions of the outcome environment: no exception escapes. -/
theorem C3_retry_backoff :
    (∀ m₁ m₂ t i o, retryable m₁ = true → retryable m₂ = true →
      extract_description_from_url (envOf [.exn m₁, .exn m₂, .ok t i o])
          = (descPayload t i o, 3, [2, 4]) ∧
      (extract_description_from_url (envOf [.exn m₁, .exn m₂, .ok t i o])).1
          = (extract_description_from_url (envOf [.ok t i o])).1 ∧
      extract_product_data_from_url (envOf [.exn m₁, .exn m₂, .ok t i o])
          = (dataPayload t, 3, [2, 4])) ∧
    (∀ env m, env 0 = CallOutcome.exn m → retryable m = false →
      extract_description_from_url env = (⟨[], 0, 0⟩, 1, []) ∧
      extract_product_data_from_url env = (.errR m, 1, [])) ∧
    (∀ m₁ m₂ m₃, retryable m₁ = true → retryable m₂ = true → retryable m₃ = true →
      extract_description_from_url (envOf [.exn m₁, .exn m₂, .exn m₃])
          = (⟨[], 0, 0⟩, 3, [2, 4]) ∧
      extract_product_data_from_url (envOf [.exn m₁, .exn m₂, .exn m₃])
          = (.errR m₃, 3, [2, 4])) := by
  refine ⟨?_, ?_, ?_⟩
  · intro m₁ m₂ t i o h₁ h₂
    refine ⟨?_, ?_, ?_⟩ <;>
      simp [extract_description_from_url, extract_product_data_from_url,
        runDescAux, runDataAux, envOf, h₁, h₂]
  · intro env m h h'
    constructor <;>
      simp [extract_description_from_url, extract_product_data_from_url,
        runDescAux, runDataAux, h, h']
  · intro m₁ m₂ m₃ h₁ h₂ h₃
    constructor <;>
      simp [extract_description_from_url, extract_product_data_from_url,
        runDescAux, runDataAux, envOf, h₁, h₂, h₃]

/-- Witness for C3 at concrete inputs: two 503 failures then a parseable
response give the parsed payload after three attempts with sleeps of two and
four seconds, and a non-transient failure returns the zero-usage result
after one attempt. -/
theorem C3_retry_backoff_witness :
    extract_description_from_url (envOf [.exn "error 503 upstream".data,
        .exn "error 503 upstream".data,
        .ok "\x7b\"descricao\": \"Bom\"\x7d".data 11 22])
      = (⟨"Bom".data, 11, 22⟩, 3, [2, 4]) ∧
    extract_description_from_url (envOf [.exn "boom".data]) = (⟨[], 0, 0⟩, 1, []) := by
  constructor
  · have h := (C3_retry_backoff.1 ("error 503 upstream".data) ("error 503 upstream".data)
      ("\x7b\"descricao\": \"Bom\"\x7d".data) 11 22 (by decide) (by decide)).1
    rw [h]
    decide
  · exact (C3_retry_backoff.2.1 (envOf [.exn "boom".data]) ("boom".data) rfl (by decide)).1

/-- C5 counterexample: on a response that is not JSON, the Leroy Merlin
extraction returns the error dictionary — the error field is set, against
the claim that it is unset, and no field of the result carries the raw
response text; the Sodimac description extraction likewise returns an empty
description rather than the raw text. -/
theorem C5_counterexample_parse_failure :
    leroyExtractFromUrl (.resp "not json".data)
      = errDict ("JSON parsing failed: Expecting value".data) ∧
    (jsonGet (errDict ("JSON parsing failed: Expecting value".data))
        "error".data).isSome = true ∧
    (errDict ("JSON parsing failed: Expecting value".data)).all
      (fun kv => decide (Json.asStr kv.2 ≠ some ("not json".data))) = true ∧
    (descPayload "no braces response".data 11 22).descricao = [] ∧
    "no braces response".data ≠ ([] : List Char) := by
  refine ⟨rfl, rfl, by decide, rfl, by decide⟩

/-- C5 as amended: a response whose text is not parseable as JSON never
raises past the operation, but the raw text is not preserved in the result —
the Leroy Merlin extraction returns the error dictionary with empty fields
and the error field set to the parse-failure message, and the Sodimac
description extraction without a brace block returns the empty description
with the captured usage and no error field. -/
theorem C5_amended_graceful_degradation :
    (∀ text, (stripWs text).isEmpty = false → (stripFences text).isEmpty = false →
      jsonLoads (stripFences text) = none →
      leroyExtractFromUrl (.resp text)
        = errDict ("JSON parsing failed: Expecting value".data)) ∧
    (∀ text i o, extractBraceBlock text = none →
      extract_description_from_url (envOf [.ok text i o]) = (⟨[], i, o⟩, 1, [])) := by
  constructor
  · intro text h1 h2 h3
    simp [leroyExtractFromUrl, h1, h2, h3]
  · intro text i o h
    simp [extract_description_from_url, runDescAux, envOf, descPayload, h]

/-- Witness for C5 at concrete inputs. -/
theorem C5_amended_witness :
    leroyExtractFromUrl (.resp "not valid json".data)
      = errDict ("JSON parsing failed: Expecting value".data) ∧
    extract_description_from_url (envOf [.ok "plain text reply".data 5 7])
      = (⟨[], 5, 7⟩, 1, []) := by
  exact ⟨C5_amended_graceful_degradation.1 ("not valid json".data)
      (by decide) (by decide) rfl,
    C5_amended_graceful_degradation.2 ("plain text reply".data) 5 7 rfl⟩

/-- C8 counterexample: on a fetch error the brand and EAN fields are not
empty — they carry the not-found sentinel strings. -/
theorem C8_counterexample_sentinels :
    (extract_product_data "https://lm".data (.error "timeout".data)).marca ≠ [] ∧
    (extract_product_data "https://lm".data (.error "timeout".data)).marca
      = marcaSentinel ∧
    (extract_product_data "https://lm".data (.error "timeout".data)).ean
      = eanSentinel ∧
    (extract_product_data "https://lm".data (.error "timeout".data)).success
      = false := by
  exact ⟨by decide, rfl, rfl, rfl⟩

/-- C8 as amended: a successful result always has non-empty title and price
(success is defined as their joint truthiness); on a fetch error the result
has success false, carries the error message, has empty title, price and
image list, and holds the not-found sentinels in the brand and EAN fields.
The operation is a total function of the fetch outcome: nothing propagates. -/
theorem C8_amended_success_invariant :
    (∀ url sub, (extract_product_data url (.ok sub)).success = true →
      (extract_product_data url (.ok sub)).titulo ≠ [] ∧
      (extract_product_data url (.ok sub)).preco ≠ []) ∧
    (∀ url msg,
      extract_product_data url (.error msg)
        = ⟨url, [], [], marcaSentinel, eanSentinel, [], false, some msg⟩) := by
  constructor
  · intro url sub h
    simp only [extract_product_data, Bool.and_eq_true] at h
    obtain ⟨ht, hp⟩ := h
    constructor
    · match htit : sub.titulo with
      | none => rw [htit] at ht; simp [pyTruthy] at ht
      | some s =>
        rw [htit] at ht
        simp only [pyTruthy, Bool.not_eq_true'] at ht
        simp [extract_product_data, htit, List.isEmpty_iff] at ht ⊢
        exact ht
    · match hpre : sub.preco with
      | none => rw [hpre] at hp; simp [pyTruthy] at hp
      | some s =>
        rw [hpre] at hp
        simp only [pyTruthy, Bool.not_eq_true'] at hp
        simp [extract_product_data, hpre, List.isEmpty_iff] at hp ⊢
        exact hp
  · intro url msg
    rfl

/-- Witness for C8 at concrete inputs: a successful extraction with the
claim hypothesis discharged, and one fetch-error record. -/
theorem C8_amended_success_invariant_witness :
    ((extract_product_data "u".data
        (.ok ⟨some "Furadeira".data, some "R$ 1,00".data, "T".data, "7".data, []⟩)).titulo
        ≠ [] ∧
      (extract_product_data "u".data
        (.ok ⟨some "Furadeira".data, some "R$ 1,00".data, "T".data, "7".data, []⟩)).preco
        ≠ []) ∧
    extract_product_data "u".data (.error "boom".data)
      = ⟨"u".data, [], [], marcaSentinel, eanSentinel, [], false, some ("boom".data)⟩ := by
  exact ⟨C8_amended_success_invariant.1 ("u".data)
      ⟨some "Furadeira".data, some "R$ 1,00".data, "T".data, "7".data, []⟩ (by decide),
    C8_amended_success_invariant.2 ("u".data) ("boom".data)⟩

/-- C10 counterexample: with two input images and a valid response without
the index key, the code uses the default index two and returns the second
image, where the claim predicts the fallback to the first path for fewer
than three images. -/
theorem C10_counterexample_default_index :
    product_image_path ["a".data, "b".data] "\x7b\x7d".data = some ("b".data) ∧
    some ("b".data) ≠ some ("a".data) ∧
    jsonLoads (stripFences "\x7b\x7d".data) = some (.obj []) ∧
    jsonGet [] "product_image_index".data = none := by
  exact ⟨rfl, by decide, rfl, rfl⟩

/-- A non-empty list has a last element, which is a member. -/
theorem getLastMem {α : Type} : ∀ (l : List α), l ≠ [] →
    ∃ a, l.getLast? = some a ∧ a ∈ l
  | [], h => absurd rfl h
  | [a], _ => ⟨a, rfl, by simp⟩
  | a :: b :: l, _ => by
    obtain ⟨x, hx, hm⟩ := getLastMem (b :: l) (by simp)
    exact ⟨x, by rw [List.getLast?_cons_cons]; exact hx, by simp [hm]⟩

/-- A non-empty list has a head element, which is a member. -/
theorem headMem {α : Type} : ∀ (l : List α), l ≠ [] →
    ∃ a, l.head? = some a ∧ a ∈ l
  | [], h => absurd rfl h
  | a :: l, _ => ⟨a, rfl, by simp⟩

/-- In-range indexing yields a member. -/
theorem getToNatMem (paths : List (List Char)) (m : Int)
    (h : 0 ≤ m ∧ m < (paths.length : Int)) :
    ∃ p, paths.get? m.toNat = some p ∧ p ∈ paths := by
  have hlt : m.toNat < paths.length := by omega
  exact ⟨paths.get ⟨m.toNat, hlt⟩, List.get?_eq_get hlt, List.get_mem _ _ _⟩

/-- C10 as amended: for a non-empty input list the selected product image
path is always an element of the input — an absent index uses the default of
two (one-based) subject to the same range check, an out-of-range index falls
back to the last path, and an unparseable response falls back to the last
path when at least three images were given and to the first otherwise. -/
theorem C10_amended_membership :
    (∀ (paths : List (List Char)) text, paths ≠ [] →
      ∃ p, product_image_path paths text = some p ∧ p ∈ paths) ∧
    (∀ (paths : List (List Char)) text, paths ≠ [] →
      jsonLoads (stripFences text) = none →
      product_image_path paths text
        = if 3 ≤ paths.length then paths.getLast? else paths.head?) := by
  have hfall : ∀ (paths : List (List Char)), paths ≠ [] →
      ∃ p, (if 3 ≤ paths.length then paths.getLast? else paths.head?) = some p
          ∧ p ∈ paths := by
    intro paths h
    by_cases h3 : 3 ≤ paths.length
    · simp only [if_pos h3]; exact getLastMem paths h
    · simp only [if_neg h3]; exact headMem paths h
  constructor
  · intro paths text h
    simp only [product_image_path]
    repeat' split
    all_goals
      first
        | exact hfall paths h
        | exact getLastMem paths h
        | exact headMem paths h
        | (rename_i hcond; exact getToNatMem paths _ hcond)
  · intro paths text h hj
    simp only [product_image_path, hj]

/-- Witness for C10 at concrete inputs. -/
theorem C10_amended_membership_witness :
    (∃ p, product_image_path ["a".data, "b".data] "\x7b\x7d".data = some p
        ∧ p ∈ [ "a".data, "b".data ]) ∧
    product_image_path ["a".data] "oops".data
      = (if 3 ≤ (["a".data] : List (List Char)).length
          then (["a".data] : List (List Char)).getLast?
          else (["a".data] : List (List Char)).head?) := by
  exact ⟨C10_amended_membership.1 ["a".data, "b".data] ("\x7b\x7d".data) (by simp),
    C10_amended_membership.2 ["a".data] ("oops".data) (by simp) rfl⟩

/-- A product URL whose first five-plus digit run differs from its longest
numeric token. -/
def c6url : List Char := "https://ex.com/11111/2222222".data

/-- C6 counterexample: the identifier the code derives is the first run of
five or more digits, not the longest numeric token — on a URL carrying the
runs 11111 and 2222222 and candidates matching one each, the code keeps the
candidate containing 11111 and drops the candidate containing the longest
token 2222222, against the claim. -/
theorem C6_counterexample_longest_token :
    longestDigitRun c6url = "2222222".data ∧
    firstDigitRun5 c6url = some ("11111".data) ∧
    containsSub "2222222".data ("cdn/b2222222.jpg".data) = true ∧
    extract_images_1800 c6url ["cdn/a11111.jpg".data, "cdn/b2222222.jpg".data]
      = ["cdn/a11111.jpg".data] ∧
    "cdn/b2222222.jpg".data ∉
      extract_images_1800 c6url ["cdn/a11111.jpg".data, "cdn/b2222222.jpg".data] := by
  exact ⟨by decide, by decide, by decide, by decide, by decide⟩

/-- A product URL whose first five-plus digit run is the product id 123456. -/
def c6url2 : List Char := "https://www.leroymerlin.com.br/produto_123456".data

/-- Eight candidate images of which exactly three contain the id 123456. -/
def c6cands : List (List Char) :=
  ["cdn/999001.jpg".data, "cdn/123456_a_1800x1800.jpg".data,
   "cdn/999002.jpg".data, "cdn/123456_b_1800x1800.jpg".data,
   "cdn/999003.jpg".data, "cdn/123456_c_1800x1800.jpg".data,
   "cdn/999004.jpg".data, "cdn/999005.jpg".data]

/-- C6 as amended: the image extraction derives the identifier as the first
run of at least five consecutive digits in the URL (falling back to the
portion of the last path segment before the first underscore) and keeps
exactly the candidates whose URL contains that identifier, preserving their
relative order; on a URL with id 123456 and three of eight candidates
containing it, exactly those three are returned in order; when the filter
keeps nothing, the normalised candidate list is returned instead of an empty
result. -/
theorem C6_amended_first_digit_run :
    (∀ url cands pid, firstDigitRun5 url = some pid →
      leroyFilterCandidates url (normalizeCandidates cands)
        = (normalizeCandidates cands).filter (fun u => containsSub pid u)) ∧
    (∀ url cands, leroyFilterCandidates url (normalizeCandidates cands) = [] →
      extract_images_1800 url cands = (normalizeCandidates cands).take 10) ∧
    extract_images_1800 c6url2 c6cands
      = ["cdn/123456_a_1800x1800.jpg".data, "cdn/123456_b_1800x1800.jpg".data,
         "cdn/123456_c_1800x1800.jpg".data] := by
  refine ⟨?_, ?_, by decide⟩
  · intro url cands pid h
    simp [leroyFilterCandidates, h]
  · intro url cands h
    simp [extract_images_1800, h, buildFinalOrder]

/-- Witness for C6 at concrete inputs. -/
theorem C6_amended_first_digit_run_witness :
    leroyFilterCandidates c6url2 (normalizeCandidates c6cands)
      = (normalizeCandidates c6cands).filter (fun u => containsSub "123456".data u) ∧
    extract_images_1800 ("https://ex.com/77777".data) ["cdn/x.jpg".data]
      = (normalizeCandidates ["cdn/x.jpg".data]).take 10 := by
  exact ⟨C6_amended_first_digit_run.1 c6url2 c6cands ("123456".data) (by decide),
    C6_amended_first_digit_run.2.1 ("https://ex.com/77777".data)
      ["cdn/x.jpg".data] (by decide)⟩

/-- A product URL whose id is 654321, for the cap-at-ten instance. -/
def c7url : List Char := "https://www.leroymerlin.com.br/produto_654321".data

/-- Fifteen valid candidates for the same product: five full-resolution
variants interleaved with ten lower-resolution ones. -/
def c7cands : List (List Char) :=
  ["cdn/654321_h1_1800x1800.jpg".data, "cdn/654321_o01_600x600.jpg".data,
   "cdn/654321_o02_600x600.jpg".data, "cdn/654321_h2_1800x1800.jpg".data,
   "cdn/654321_o03_600x600.jpg".data, "cdn/654321_o04_600x600.jpg".data,
   "cdn/654321_h3_1800x1800.jpg".data, "cdn/654321_o05_600x600.jpg".data,
   "cdn/654321_o06_600x600.jpg".data, "cdn/654321_h4_1800x1800.jpg".data,
   "cdn/654321_o07_600x600.jpg".data, "cdn/654321_o08_600x600.jpg".data,
   "cdn/654321_h5_1800x1800.jpg".data, "cdn/654321_o09_600x600.jpg".data,
   "cdn/654321_o10_600x600.jpg".data]

/-- C7: the final image list places the full-resolution variants first,
followed by the remaining candidates in their prior order, has no duplicates
and has length at most ten; the fifteen-candidate instance returns exactly
the first ten in this priority order. -/
theorem C7_image_order_cap :
    (∀ url cands,
      extract_images_1800 url cands
        = (if (leroyFilterCandidates url (normalizeCandidates cands)).isEmpty
            then (normalizeCandidates cands).take 10
            else ((leroyFilterCandidates url (normalizeCandidates cands)).filter has1800
                ++ (leroyFilterCandidates url (normalizeCandidates cands)).filter
                    (fun u => !has1800 u)).take 10)) ∧
    (∀ url cands, (extract_images_1800 url cands).length ≤ 10) ∧
    (∀ url cands, (extract_images_1800 url cands).Nodup) ∧
    c7cands.length = 15 ∧
    extract_images_1800 c7url c7cands
      = ["cdn/654321_h1_1800x1800.jpg".data, "cdn/654321_h2_1800x1800.jpg".data,
         "cdn/654321_h3_1800x1800.jpg".data, "cdn/654321_h4_1800x1800.jpg".data,
         "cdn/654321_h5_1800x1800.jpg".data, "cdn/654321_o01_600x600.jpg".data,
         "cdn/654321_o02_600x600.jpg".data, "cdn/654321_o03_600x600.jpg".data,
         "cdn/654321_o04_600x600.jpg".data, "cdn/654321_o05_600x600.jpg".data] := by
  have hFnodup : ∀ url cands,
      (leroyFilterCandidates url (normalizeCandidates cands)).Nodup := by
    intro url cands
    have hN := normalizeCandidates_nodup cands
    unfold leroyFilterCandidates
    split
    · exact hN.filter _
    · exact hN.filter _
  refine ⟨?_, ?_, ?_, by decide, by decide⟩
  · intro url cands
    have hF := hFnodup url cands
    simp only [extract_images_1800]
    rw [buildFinalOrder_eq hF]
    by_cases hFe : leroyFilterCandidates url (normalizeCandidates cands) = []
    · simp [hFe]
    · have hne :
          (leroyFilterCandidates url (normalizeCandidates cands)).filter has1800
            ++ (leroyFilterCandidates url (normalizeCandidates cands)).filter
                (fun u => !has1800 u) ≠ [] := by
        obtain ⟨a, ha⟩ := List.exists_mem_of_ne_nil _ hFe
        intro hcontr
        rw [List.append_eq_nil] at hcontr
        by_cases hp : has1800 a
        · have : a ∈ (leroyFilterCandidates url (normalizeCandidates cands)).filter
              has1800 := List.mem_filter.mpr ⟨ha, hp⟩
          rw [hcontr.1] at this
          exact List.not_mem_nil a this
        · have : a ∈ (leroyFilterCandidates url (normalizeCandidates cands)).filter
              (fun u => !has1800 u) :=
            List.mem_filter.mpr ⟨ha, by simp [hp]⟩
          rw [hcontr.2] at this
          exact List.not_mem_nil a this
      simp [hFe, hne, List.isEmpty_iff]
  · intro url cands
    simp only [extract_images_1800]
    exact List.length_take_le 10 _
  · intro url cands
    have hF := hFnodup url cands
    have hN := normalizeCandidates_nodup cands
    simp only [extract_images_1800]
    refine List.Nodup.sublist (List.take_sublist 10 _) ?_
    split
    · exact hN
    · rw [buildFinalOrder_eq hF]
      refine (hF.filter _).append (hF.filter _) ?_
      intro x hx hx'
      rw [List.mem_filter] at hx hx'
      simp only [Bool.not_eq_true'] at hx'
      rw [hx.2] at hx'
      exact absurd hx'.2 (by simp)

/-- C4: the pipeline invocation on an MPO source image whose base generation
produces no usable payload returns through the early exit of lines 724-726,
which does not run the cleanup loop: the converted temporary file created
during the call is still on disk when the call returns.  The same happens
through the base-upload exception path of lines 752-754, where the saved
base image file is left behind.  On the fully successful path the cleanup
loop does delete every recorded temporary file. -/
theorem C4_temp_file_leak :
    (generate_product_images
        ⟨true, false, [.noImage, .noImage, .noImage], true, []⟩ ⟨[], 0, []⟩).2.disk
      = [0] ∧
    0 ∈ (generate_product_images
        ⟨true, false, [.noImage, .noImage, .noImage], true, []⟩ ⟨[], 0, []⟩).2.created ∧
    (generate_product_images
        ⟨true, false, [.noImage, .noImage, .noImage], true, []⟩ ⟨[], 0, []⟩).1 = 0 ∧
    (generate_product_images
        ⟨false, false, [.image (.verdict true 90)], false, []⟩ ⟨[], 0, []⟩).2.disk
      = [1] ∧
    1 ∈ (generate_product_images
        ⟨false, false, [.image (.verdict true 90)], false, []⟩ ⟨[], 0, []⟩).2.created ∧
    (generate_product_images
        ⟨false, false, [.image (.verdict true 90)], true,
          [⟨[.image (.verdict true 90)], true⟩, ⟨[.image (.verdict true 90)], true⟩,
           ⟨[.image (.verdict true 90)], true⟩]⟩ ⟨[], 0, []⟩).2.disk
      = [] := by
  exact ⟨by decide, by decide, by decide, by decide, by decide, by decide⟩

end BdAsService
